import Mathlib

/-!
Verification development for the GROMACS multi-simulation test fixture and the qhop core.

Part I embeds `src/programs/mdrun/tests/multisimtest.cpp` (the `MultiSimTest`
fixture): the constructor, `mpiSetupValid`, `organizeMdpFile`, `runGrompp`,
`runExitsNormallyTest` and `runMaxhTest`.

Part II models the hop selector and the topology mutator that `include/qhop.h`
only declares (`do_qhop`, `qhop_protonate`, `qhop_deprotonate`).

Conventions of the embedding:
* C++ `int` values are `Int`; `a / b` is `Int.tdiv` and `a % b` is `Int.tmod`
  (truncation towards zero). A zero divisor is undefined behaviour in C++ and is
  made explicit where the source does not guard it (`intDiv`).
* `real` arithmetic is taken exact (`ℚ`).
* Failing assertions and undefined behaviour are values of `Failure` in `Except`.
* Collaborators that are not part of the sources (`Path::join`, the results of
  the external `grompp`/`mdrun` calls) are parameters.
-/

namespace gmx.test

/-! ## Part I: `multisimtest.cpp` -/

/-- Ways in which running fixture code stops abnormally. -/
inductive Failure where
  /-- An integer division whose divisor is zero was evaluated (undefined behaviour). -/
  | divisionByZero
  /-- `GMX_RELEASE_ASSERT(cond, msg)` with `cond` false. -/
  | releaseAssert (msg : String)
  deriving DecidableEq, Repr

/-- C++ `a / b` on `int`: undefined for `b = 0`, truncating otherwise. -/
def intDiv (a b : Int) : Except Failure Int :=
  if b = 0 then .error .divisionByZero else .ok (a.tdiv b)

/-- `GMX_RELEASE_ASSERT(cond, msg)`. -/
def gmxReleaseAssert (cond : Bool) (msg : String) : Except Failure Unit :=
  if cond then .ok () else .error (.releaseAssert msg)

/-- `formatString("sim_%d", i)` with `directoryNameFormat = "sim_%d"`. -/
def directoryName (i : Int) : String := "sim_" ++ toString i

/-- The fixture after construction, together with the directories its constructor created. -/
structure MultiSimTest where
  size_ : Int
  rank_ : Int
  numRanksPerSimulation_ : Int
  simulationNumber_ : Int
  /-- The command line held by `mdrunCaller_`. -/
  mdrunCaller_ : List String
  /-- The value passed to `fileManager_.setOutputTempDirectory`. -/
  outputTempDirectory : String
  /-- Arguments of the `Directory::create` calls made by the constructor, in order. -/
  createdDirectories : List String
  deriving DecidableEq, Repr

/-- Guard of line 92, `rank_ % numRanksPerSimulation_ == 0`: this rank creates the directory. -/
def createsDirectory (rank_ numRanksPerSimulation_ : Int) : Bool :=
  rank_.tmod numRanksPerSimulation_ == 0

/-- Guard of line 165, `rank_ % numRanksPerSimulation_ == 0`: this rank calls grompp. -/
def callsGrompp (rank_ numRanksPerSimulation_ : Int) : Bool :=
  rank_.tmod numRanksPerSimulation_ == 0

/-- The loop of lines 105-108:
`for (int i = 0; i < size_ / numRanksPerSimulation_; ++i) mdrunCaller_->append(...)`,
started at counter `i` with the arguments `args` appended so far; `bound` is
`size_ / numRanksPerSimulation_`. -/
def appendMultidirs (join : String → String → String) (originalTempDirectory : String)
    (bound i : Int) (args : List String) : List String :=
  if i < bound then
    appendMultidirs join originalTempDirectory bound (i + 1)
      (args ++ [join originalTempDirectory (directoryName i)])
  else args
termination_by (bound - i).toNat
decreasing_by omega

/-- The constructor `MultiSimTest::MultiSimTest()`. `nodeNum`, `nodeRank` are the values of
`gmx_node_num()`, `gmx_node_rank()`, `param0` is `std::get<0>(GetParam())`,
`originalTempDirectory` is `fileManager_.getOutputTempDirectory()` and `join` is
`Path::join`. The member initialisers run first, in the order written (lines 73-77; the
class declaration that fixes their order is in `multisimtest.h`), then the body
(lines 80-108). Ranks and rank counts are non-negative and below `2^31`, so no `int`
operation here overflows. -/
def MultiSimTest.construct (join : String → String → String) (nodeNum nodeRank param0 : Int)
    (originalTempDirectory : String) : Except Failure MultiSimTest := do
  -- member initialisers
  let size_ := nodeNum
  let rank_ := nodeRank
  let numRanksPerSimulation_ := param0
  let simulationNumber_ ← intDiv rank_ numRanksPerSimulation_
  -- body
  gmxReleaseAssert (decide (numRanksPerSimulation_ > 0)) "Invalid number of ranks per simulation."
  let newTempDirectory := join originalTempDirectory (directoryName simulationNumber_)
  let created := if createsDirectory rank_ numRanksPerSimulation_ then [newTempDirectory] else []
  let bound ← intDiv size_ numRanksPerSimulation_
  let caller := appendMultidirs join originalTempDirectory bound 0 ["mdrun", "-multidir"]
  return { size_ := size_, rank_ := rank_, numRanksPerSimulation_ := numRanksPerSimulation_,
           simulationNumber_ := simulationNumber_, mdrunCaller_ := caller,
           outputTempDirectory := newTempDirectory, createdDirectories := created }

/-- `MultiSimTest::mpiSetupValid()`. Its divisions are evaluated on a constructed
fixture, whose `numRanksPerSimulation_` is positive. -/
def MultiSimTest.mpiSetupValid (t : MultiSimTest) : Bool :=
  let haveAtLeastTwoSimulations := decide (t.size_.tdiv t.numRanksPerSimulation_ ≥ 2)
  let simulationsHaveIdenticalRankNumber := t.size_.tmod t.numRanksPerSimulation_ == 0
  haveAtLeastTwoSimulations && simulationsHaveIdenticalRankNumber

/-- The numbers `organizeMdpFile` formats into the mdp file (lines 130-158). -/
structure MdpFile where
  integrator : String
  tcoupl : String
  pcoupl : String
  nsteps : Int
  refT : ℚ
  refP : ℚ
  genTemp : ℚ
  deriving DecidableEq, Repr

/-- The `gen-temp` argument of line 158,
`std::max(baseTemperature - 10 * rank_, real(0))` with `baseTemperature = 298`, in exact
arithmetic (the `int` product `10 * rank_` is exact for `rank_ ≤ 214748364`). -/
def genTemp (rank_ : Int) : ℚ :=
  let baseTemperature : ℚ := 298
  max (baseTemperature - ((10 * rank_ : Int) : ℚ)) 0

/-- `MultiSimTest::organizeMdpFile`: the release assertion, then the mdp contents handed to
`runner->useStringAsMdpFile`. -/
def MultiSimTest.organizeMdpFile (t : MultiSimTest) (integrator tcoupl pcoupl : String)
    (numSteps : Int) : Except Failure MdpFile := do
  gmxReleaseAssert t.mpiSetupValid "Creating the mdp file without valid MPI setup is useless."
  let baseTemperature : ℚ := 298
  let basePressure : ℚ := 1
  return { integrator := integrator, tcoupl := tcoupl, pcoupl := pcoupl, nsteps := numSteps,
           refT := baseTemperature + (1 / 10000) * (t.rank_ : ℚ),
           refP := basePressure * ((101 / 100 : ℚ) ^ t.rank_),
           genTemp := genTemp t.rank_ }

/-- Observable actions of the test bodies, in program order. -/
inductive Event where
  | useTopGroAndNdxFromDatabase (name : String)
  | useStringAsMdpFile (mdp : MdpFile)
  | callGromppOnThisRank (result : Int)
  | callMdrun (result : Int)
  | runFirstMdrun
  | runSecondMdrun
  deriving DecidableEq, Repr

/-- The test parameters `std::get<1..3>(GetParam())`, as their string values. -/
structure TestParams where
  simulator : String
  tcoupl : String
  pcoupl : String
  deriving DecidableEq, Repr

/-- `MultiSimTest::runGrompp(runner, numSteps)`; `gromppResult` is what
`runner->callGromppOnThisRank()` returns (`EXPECT_EQ` does not stop the test). -/
def MultiSimTest.runGrompp (t : MultiSimTest) (p : TestParams) (numSteps gromppResult : Int) :
    Except Failure (List Event) := do
  if callsGrompp t.rank_ t.numRanksPerSimulation_ then
    let mdp ← t.organizeMdpFile p.simulator p.tcoupl p.pcoupl numSteps
    return [.useStringAsMdpFile mdp, .callGromppOnThisRank gromppResult]
  else
    return []

/-- `MultiSimTest::runExitsNormallyTest()`; `defaultNumSteps` is the default argument of
`runGrompp` declared in the header. -/
def MultiSimTest.runExitsNormallyTest (t : MultiSimTest) (p : TestParams)
    (defaultNumSteps gromppResult mdrunResult : Int) : Except Failure (List Event) := do
  if !t.mpiSetupValid then
    return []
  let tr ← t.runGrompp p defaultNumSteps gromppResult
  return [.useTopGroAndNdxFromDatabase "spc2"] ++ tr ++ [.callMdrun mdrunResult]

/-- `MultiSimTest::runMaxhTest()`. -/
def MultiSimTest.runMaxhTest (t : MultiSimTest) (p : TestParams) (gromppResult : Int) :
    Except Failure (List Event) := do
  if !t.mpiSetupValid then
    return []
  let numSteps : Int := 100
  let tr ← t.runGrompp p numSteps gromppResult
  return [.useTopGroAndNdxFromDatabase "spc2"] ++ tr ++ [.runFirstMdrun, .runSecondMdrun]

/-- The message of the release assertion in `organizeMdpFile`. -/
def organizeMdpFileAssertion : Failure :=
  .releaseAssert "Creating the mdp file without valid MPI setup is useless."

/-- Whether a trace contains a call of `organizeMdpFile` (seen through its `useStringAsMdpFile`). -/
def reachesOrganizeMdpFile (tr : List Event) : Bool :=
  tr.any fun e => match e with
    | .useStringAsMdpFile _ => true
    | _ => false

end gmx.test

namespace qhop

/-! ## Part II: the qhop core declared in `qhop.h`

The header declares `do_qhop`, `qhop_protonate` and `qhop_deprotonate`; their
bodies are not among the sources. The definitions below follow the written
specification of the Hop Selector and the Topology Mutator. -/

/-! ### Hop Selector (the selection step of `do_qhop`) -/

/-- Modelled from the spec: the `HopCandidate` record of the data model (the body of
`do_qhop` that builds it is missing). Atoms are referred to by their global index. -/
structure HopCandidate where
  donor : Nat
  acceptor : Nat
  /-- The computed transfer probability. -/
  prob : ℚ
  /-- The computed energetic cost. -/
  energy : ℚ
  deriving DecidableEq, Repr

/-- Modelled from the spec: the `AcceptedHop` record, a candidate promoted to "will
execute", carrying the before/after residue-subtype identifiers of donor and acceptor
(the body of `do_qhop` that builds it is missing). -/
structure AcceptedHop where
  donor : Nat
  acceptor : Nat
  prob : ℚ
  donorBefore : Nat
  donorAfter : Nat
  acceptorBefore : Nat
  acceptorAfter : Nat
  deriving DecidableEq, Repr

/-- Modelled from the spec: the two selection policies, the "qhopmode" (the source
enumeration is missing). -/
inductive QhopMode where
  | unscrambled
  | scrambled
  deriving DecidableEq, Repr

/-- Modelled from the spec: what the selector consumes from its collaborators (none of
them is among the sources): the seedable uniform draw of the random-number collaborator
(`uniform seed k` is the `k`-th draw for `seed`), the seeded random permutation used in
scrambled mode, and the registry/database lookup of the (before, after) residue subtypes
of an atom that gives up, respectively takes, a proton. -/
structure Collaborators where
  uniform : Nat → Nat → ℚ
  scramble : Nat → List HopCandidate → List HopCandidate
  donorSubtypes : Nat → Nat × Nat
  acceptorSubtypes : Nat → Nat × Nat

/-- Modelled from the spec: promotion of a candidate to an `AcceptedHop` (missing
body of `do_qhop`). -/
def promote (co : Collaborators) (c : HopCandidate) : AcceptedHop :=
  { donor := c.donor, acceptor := c.acceptor, prob := c.prob,
    donorBefore := (co.donorSubtypes c.donor).1, donorAfter := (co.donorSubtypes c.donor).2,
    acceptorBefore := (co.acceptorSubtypes c.acceptor).1,
    acceptorAfter := (co.acceptorSubtypes c.acceptor).2 }

/-- Modelled from the spec: the state of the first-claim-wins pass (missing body of
`do_qhop`): the atoms claimed so far and the hops accepted so far, in order. -/
structure Selection where
  claimed : List Nat
  accepted : List AcceptedHop
  deriving DecidableEq, Repr

/-- Modelled from the spec: the fixed order of unscrambled mode, "by donor global index,
then acceptor global index" (missing body of `do_qhop`). -/
def candidateLE (a b : HopCandidate) : Prop :=
  a.donor < b.donor ∨ (a.donor = b.donor ∧ a.acceptor ≤ b.acceptor)

instance : DecidableRel candidateLE := fun a b => by
  unfold candidateLE
  exact inferInstance

/-- Modelled from the spec: the processing order of the candidates for a mode (missing body
of `do_qhop`): sorted in unscrambled mode, randomly permuted from the seed in scrambled mode. -/
def processingOrder (co : Collaborators) (mode : QhopMode) (seed : Nat)
    (candidates : List HopCandidate) : List HopCandidate :=
  match mode with
  | .unscrambled => candidates.insertionSort candidateLE
  | .scrambled => co.scramble seed candidates

/-- Modelled from the spec: one step of the first-claim-wins procedure (missing body of
`do_qhop`). A candidate touching a claimed atom is skipped; otherwise it is accepted when
its random draw `u` is strictly below its probability (with draws in `[0,1)` the comparison
under which probability 1 always passes and probability 0 never does), and then claims its
donor and acceptor. -/
def tryHop (co : Collaborators) (st : Selection) (c : HopCandidate) (u : ℚ) : Selection :=
  if c.donor ∈ st.claimed ∨ c.acceptor ∈ st.claimed then st
  else if u < c.prob then
    { claimed := c.donor :: c.acceptor :: st.claimed,
      accepted := st.accepted ++ [promote co c] }
  else st

/-- Modelled from the spec: the first-claim-wins pass over the candidates in processing
order (missing body of `do_qhop`); the candidate at position `k` is tested against the
`k`-th draw of the step's seed. -/
def firstClaimWins (co : Collaborators) (seed : Nat) :
    Nat → Selection → List HopCandidate → Selection
  | _, st, [] => st
  | k, st, c :: rest => firstClaimWins co seed (k + 1) (tryHop co st c (co.uniform seed k)) rest

/-- Modelled from the spec: the Hop Selector, `select(candidates, rngSeedForStep, mode)`
(the selection step of `do_qhop`, whose body is missing). -/
def select (co : Collaborators) (candidates : List HopCandidate) (seed : Nat)
    (mode : QhopMode) : List AcceptedHop :=
  (firstClaimWins co seed 0 { claimed := [], accepted := [] }
    (processingOrder co mode seed candidates)).accepted

/-- Two accepted hops have no atom in common. -/
def AcceptedHop.disjoint (h₁ h₂ : AcceptedHop) : Prop :=
  h₁.donor ≠ h₂.donor ∧ h₁.acceptor ≠ h₂.acceptor ∧
    h₁.donor ≠ h₂.acceptor ∧ h₁.acceptor ≠ h₂.donor

/-! ### Topology Mutator (`qhop_protonate` / `qhop_deprotonate`) -/

/-- Modelled from the spec: an entry of a bonded-interaction list as the topology
collaborator exposes it, (interaction-type, atom-index-tuple, parameter-identifier)
(`t_ilist` is declared in a missing header). -/
structure BondedEntry where
  ftype : Nat
  atoms : List Nat
  param : Nat
  deriving DecidableEq, Repr

/-- Modelled from the spec: `BondedIndexEntry`, a position in a bonded-interaction list
together with the parameter variant usable there per residue subtype (built by
`qhop_index_bondeds`, whose body is missing). -/
structure BondedIndexEntry where
  /-- Which bonded-interaction list. -/
  list : Nat
  /-- Position in that list. -/
  pos : Nat
  /-- Pairs (residue subtype, parameter identifier). -/
  variants : List (Nat × Nat)
  deriving DecidableEq, Repr

/-- Modelled from the spec: a titratable residue of `t_qhoprec` (declared in a missing
header): its atoms, its active residue subtype and its part of the bonded index. -/
structure QhopResidue where
  atoms : List Nat
  subtype : Nat
  bondeds : List BondedIndexEntry
  deriving DecidableEq, Repr

/-- Modelled from the spec: `TitratableAtom` (`t_qhop_atom`, declared in a missing
header): the atom, its owning residue and the hydrogens of its proton slots. -/
structure TitratableAtom where
  atom : Nat
  residue : Nat
  protons : List Nat
  deriving DecidableEq, Repr

/-- Modelled from the spec: the database collaborator (`qhop_db`, declared in a missing
header): transition targets and the charge set of a residue subtype. -/
structure QhopDb where
  protonated : Nat → Option Nat
  deprotonated : Nat → Option Nat
  charges : Nat → List ℚ

/-- Modelled from the spec: what the mutator and the integrator work on (the types
`gmx_localtop_t`, `t_mdatoms`, `t_qhoprec`, `t_state` are declared in missing headers):
the bonded-interaction lists, per-atom charges and active-hydrogen flags, the residues,
and the positions and velocities owned by the outer simulation. -/
structure SimState where
  ilists : List (List BondedEntry)
  charge : List ℚ
  active : List Bool
  residues : List QhopResidue
  x : List (ℚ × ℚ × ℚ)
  v : List (ℚ × ℚ × ℚ)
  deriving DecidableEq, Repr

/-- Modelled from the spec: the recoverable error of the mutator (§7). -/
inductive MutationError where
  | unsupportedTransition (residue : Nat) (subtype : Nat)
  deriving DecidableEq, Repr

/-- Apply `f` to the element at position `n`, if there is one. -/
def modifyNth {α : Type} (f : α → α) : Nat → List α → List α
  | _, [] => []
  | 0, a :: l => f a :: l
  | n + 1, a :: l => a :: modifyNth f n l

/-- Modelled from the spec: rewrite the parameter identifier of one indexed entry to the
variant of subtype `sub` (missing body of `qhop_protonate`/`qhop_deprotonate`). -/
def swapBonded (sub : Nat) (residue : Nat) (ilists : List (List BondedEntry))
    (e : BondedIndexEntry) : Except MutationError (List (List BondedEntry)) :=
  match e.variants.lookup sub with
  | none => .error (.unsupportedTransition residue sub)
  | some p => .ok (modifyNth (modifyNth (fun b => { b with param := p }) e.pos) e.list ilists)

/-- Modelled from the spec: swap every indexed entry of a residue (missing body of
`qhop_protonate`/`qhop_deprotonate`). -/
def swapBondeds (sub : Nat) (residue : Nat) :
    List (List BondedEntry) → List BondedIndexEntry → Except MutationError (List (List BondedEntry))
  | ilists, [] => .ok ilists
  | ilists, e :: es => do
    let ilists' ← swapBonded sub residue ilists e
    swapBondeds sub residue ilists' es

/-- Modelled from the spec: write a residue's charge set onto its atoms (missing body of
`qhop_protonate`/`qhop_deprotonate`). -/
def setCharges : List Nat → List ℚ → List ℚ → List ℚ
  | a :: as, q :: qs, charge => setCharges as qs (modifyNth (fun _ => q) a charge)
  | _, _, charge => charge

/-- Modelled from the spec: set the active flag of the first hydrogen of the slot whose flag
is `!b` to `b` (missing body of `qhop_protonate`/`qhop_deprotonate`). -/
def toggleProton (b : Bool) : List Nat → List Bool → List Bool
  | [], active => active
  | h :: hs, active =>
    if active.getD h b = !b then modifyNth (fun _ => b) h active else toggleProton b hs active

/-- Modelled from the spec: the common part of `qhop_protonate` and `qhop_deprotonate`
(their bodies are missing; the declarations in `qhop.h` pass the topology, the per-atom
metadata and the qhop record, and no coordinate array: moving parked hydrogens is the job of
`fold_inactive_protons`): switch the residue of `qatom` to the subtype `target` gives,
swap the indexed bonded parameters when `bSwapBondeds`, update the charges and toggle the
proton's participation flag `b`. An unsupported transition rejects the mutation. -/
def changeProtonation (target : Nat → Option Nat) (b : Bool) (db : QhopDb)
    (qatom : TitratableAtom) (bSwapBondeds : Bool) (s : SimState) :
    Except MutationError SimState := do
  let res := s.residues.getD qatom.residue { atoms := [], subtype := 0, bondeds := [] }
  let sub ← match target res.subtype with
    | some sub => pure sub
    | none => throw (.unsupportedTransition qatom.residue res.subtype)
  let ilists ← if bSwapBondeds then swapBondeds sub qatom.residue s.ilists res.bondeds
    else pure s.ilists
  return { s with
    ilists := ilists
    charge := setCharges res.atoms (db.charges sub) s.charge
    active := toggleProton b qatom.protons s.active
    residues := modifyNth (fun r => { r with subtype := sub }) qatom.residue s.residues }

/-- Modelled from the spec: `qhop_protonate` (declared in `qhop.h`, body missing). -/
def qhop_protonate (db : QhopDb) (qatom : TitratableAtom) (bSwapBondeds : Bool)
    (s : SimState) : Except MutationError SimState :=
  changeProtonation db.protonated true db qatom bSwapBondeds s

/-- Modelled from the spec: `qhop_deprotonate` (declared in `qhop.h`, body missing). -/
def qhop_deprotonate (db : QhopDb) (qatom : TitratableAtom) (bSwapBondeds : Bool)
    (s : SimState) : Except MutationError SimState :=
  changeProtonation db.deprotonated false db qatom bSwapBondeds s

/-- Modelled from the spec: the Topology Mutator applied to one accepted hop (body
missing): the donor is deprotonated, then the acceptor is protonated; a rejected
mutation leaves the state untouched. -/
def applyHop (db : QhopDb) (donor acceptor : TitratableAtom) (s : SimState) :
    Except MutationError SimState := do
  let s₁ ← qhop_deprotonate db donor true s
  qhop_protonate db acceptor true s₁

/-- The part of the bonded-interaction lists a mutation must not change: for every list,
the interaction type and atom-index tuple of every entry, in order. -/
def bondedShape (ilists : List (List BondedEntry)) : List (List (Nat × List Nat)) :=
  ilists.map fun il => il.map fun e => (e.ftype, e.atoms)

end qhop

namespace gmx.test

/-- A fixture with four ranks, two per simulation. -/
def fourRanksTwoPerSimulation : MultiSimTest :=
  { size_ := 4, rank_ := 0, numRanksPerSimulation_ := 2, simulationNumber_ := 0,
    mdrunCaller_ := ["mdrun", "-multidir", "sim_0", "sim_1"],
    outputTempDirectory := "sim_0", createdDirectories := ["sim_0"] }

end gmx.test

namespace qhop

/-- What the first-claim-wins pass maintains: accepted hops are pairwise disjoint and
their atoms are claimed. -/
def Selection.consistent (st : Selection) : Prop :=
  st.accepted.Pairwise AcceptedHop.disjoint ∧
    ∀ h ∈ st.accepted, h.donor ∈ st.claimed ∧ h.acceptor ∈ st.claimed

/-- An atom is claimed only by an accepted hop that has it as donor or acceptor. -/
def Selection.claimsJustified (st : Selection) : Prop :=
  ∀ a ∈ st.claimed, ∃ h ∈ st.accepted, h.donor = a ∨ h.acceptor = a

/-- Sample collaborators: every draw is 1/2, scrambling reverses the list. -/
def sampleCollaborators : Collaborators :=
  { uniform := fun _ _ => 1 / 2, scramble := fun _ l => l.reverse,
    donorSubtypes := fun _ => (1, 0), acceptorSubtypes := fun _ => (0, 1) }

/-- Sample candidates: two donors in range of acceptor 5, and a zero-probability pair. -/
def sampleCandidates : List HopCandidate :=
  [⟨2, 5, 1, 0⟩, ⟨1, 5, 1, 0⟩, ⟨3, 7, 0, 0⟩]

/-- Sample candidates whose probabilities are all zero. -/
def zeroCandidates : List HopCandidate :=
  [⟨1, 5, 0, 0⟩, ⟨2, 6, 0, 0⟩]

/-- Sample database: subtype 0 (deprotonated) and subtype 1 (protonated). -/
def sampleDb : QhopDb :=
  { protonated := fun s => if s = 0 then some 1 else none,
    deprotonated := fun s => if s = 1 then some 0 else none,
    charges := fun s => if s = 1 then [0, 1] else [-1, 0] }

/-- Sample state: one bond list and one angle list; residue 0 (atoms 0, 1) is deprotonated
and owns the bond at position 1, residue 1 (atoms 2, 3) is protonated and owns the angle. -/
def sampleState : SimState :=
  { ilists := [[⟨0, [4, 5], 7⟩, ⟨0, [0, 1], 10⟩], [⟨1, [2, 3, 4], 21⟩]],
    charge := [-1, 0, 0, 1, 0, 0],
    active := [true, false, true, true, true, true],
    residues := [⟨[0, 1], 0, [⟨0, 1, [(0, 10), (1, 11)]⟩]⟩,
                 ⟨[2, 3], 1, [⟨1, 0, [(0, 20), (1, 21)]⟩]⟩],
    x := [(0, 0, 0), (1, 0, 0), (2, 0, 0), (3, 0, 0), (4, 0, 0), (5, 0, 0)],
    v := [(0, 0, 0), (0, 1, 0), (0, 0, 0), (0, 0, 1), (0, 0, 0), (0, 0, 0)] }

/-- The acceptor of the sample hop: atom 0 of residue 0, with hydrogen 1. -/
def sampleAcceptor : TitratableAtom := ⟨0, 0, [1]⟩

/-- The donor of the sample hop: atom 2 of residue 1, with hydrogen 3. -/
def sampleDonor : TitratableAtom := ⟨2, 1, [3]⟩

/-- The sample state after protonating the sample acceptor. -/
def sampleProtonated : SimState :=
  { ilists := [[⟨0, [4, 5], 7⟩, ⟨0, [0, 1], 11⟩], [⟨1, [2, 3, 4], 21⟩]],
    charge := [0, 1, 0, 1, 0, 0],
    active := [true, true, true, true, true, true],
    residues := [⟨[0, 1], 1, [⟨0, 1, [(0, 10), (1, 11)]⟩]⟩,
                 ⟨[2, 3], 1, [⟨1, 0, [(0, 20), (1, 21)]⟩]⟩],
    x := [(0, 0, 0), (1, 0, 0), (2, 0, 0), (3, 0, 0), (4, 0, 0), (5, 0, 0)],
    v := [(0, 0, 0), (0, 1, 0), (0, 0, 0), (0, 0, 1), (0, 0, 0), (0, 0, 0)] }

/-- The sample state after the hop from the sample donor to the sample acceptor. -/
def sampleHopped : SimState :=
  { ilists := [[⟨0, [4, 5], 7⟩, ⟨0, [0, 1], 11⟩], [⟨1, [2, 3, 4], 20⟩]],
    charge := [0, 1, -1, 0, 0, 0],
    active := [true, true, true, false, true, true],
    residues := [⟨[0, 1], 1, [⟨0, 1, [(0, 10), (1, 11)]⟩]⟩,
                 ⟨[2, 3], 0, [⟨1, 0, [(0, 20), (1, 21)]⟩]⟩],
    x := [(0, 0, 0), (1, 0, 0), (2, 0, 0), (3, 0, 0), (4, 0, 0), (5, 0, 0)],
    v := [(0, 0, 0), (0, 1, 0), (0, 0, 0), (0, 0, 1), (0, 0, 0), (0, 0, 0)] }

end qhop

namespace gmx.test

/-! ## Theorems about `multisimtest.cpp` -/

theorem tdiv_mul_cancel_pos (k n : Int) (hn : 0 < n) : (k * n).tdiv n = k :=
  Int.mul_tdiv_cancel k (ne_of_gt hn)

theorem tdiv_mul_add_tmod (a n : Int) : a.tdiv n * n + a.tmod n = a := by
  have h := Int.tdiv_add_tmod a n
  rw [Int.mul_comm] at h
  exact h

theorem tdiv_mul_le_of_nonneg (r n : Int) (hr : 0 ≤ r) (hn : 0 < n) :
    0 ≤ r.tdiv n * n ∧ r.tdiv n * n ≤ r := by
  have h := tdiv_mul_add_tmod r n
  have h1 : 0 ≤ r.tmod n := Int.tmod_nonneg n hr
  have h2 : 0 ≤ r.tdiv n := Int.tdiv_nonneg hr (le_of_lt hn)
  constructor
  · exact Int.mul_nonneg h2 (le_of_lt hn)
  · omega

/-- C5: for `size_ ≥ 0` and `numRanksPerSimulation_ > 0`, `mpiSetupValid()` is true exactly
when `size_ = k * numRanksPerSimulation_` for some integer `k ≥ 2`. -/
theorem mpiSetupValid_iff (t : MultiSimTest)
    (hn : 0 < t.numRanksPerSimulation_) :
    t.mpiSetupValid = true ↔ ∃ k : Int, 2 ≤ k ∧ t.size_ = k * t.numRanksPerSimulation_ := by
  unfold MultiSimTest.mpiSetupValid
  simp only [ge_iff_le, Bool.and_eq_true, decide_eq_true_eq, beq_iff_eq]
  constructor
  · rintro ⟨h2, h0⟩
    refine ⟨t.size_.tdiv t.numRanksPerSimulation_, h2, ?_⟩
    have h := tdiv_mul_add_tmod t.size_ t.numRanksPerSimulation_
    rw [h0] at h
    omega
  · rintro ⟨k, hk, hs⟩
    rw [hs, tdiv_mul_cancel_pos k _ hn, Int.mul_tmod_left]
    exact ⟨hk, rfl⟩

theorem mpiSetupValid_iff_witness :
    0 < fourRanksTwoPerSimulation.numRanksPerSimulation_ ∧
      (fourRanksTwoPerSimulation.mpiSetupValid = true ↔
        ∃ k : Int, 2 ≤ k ∧ fourRanksTwoPerSimulation.size_
          = k * fourRanksTwoPerSimulation.numRanksPerSimulation_) :=
  ⟨by decide, mpiSetupValid_iff fourRanksTwoPerSimulation (by decide)⟩

/-- C6: for `numRanksPerSimulation_ > 0` and a rank `0 ≤ r < size_`, the rank
`(r / numRanksPerSimulation_) * numRanksPerSimulation_` is a rank of the same simulation
that passes both guards (directory creation and the grompp call), and every rank below
`size_` of the same simulation that passes one of the guards is that rank. -/
theorem one_rank_per_simulation (size_ n r : Int) (hn : 0 < n) (hr : 0 ≤ r) (hlt : r < size_) :
    (0 ≤ r.tdiv n * n ∧ r.tdiv n * n < size_ ∧ (r.tdiv n * n).tdiv n = r.tdiv n ∧
        createsDirectory (r.tdiv n * n) n = true ∧ callsGrompp (r.tdiv n * n) n = true) ∧
      ∀ r' : Int, r' < size_ → r'.tdiv n = r.tdiv n →
        (createsDirectory r' n = true ∨ callsGrompp r' n = true) → r' = r.tdiv n * n := by
  obtain ⟨h0, hle⟩ := tdiv_mul_le_of_nonneg r n hr hn
  refine ⟨⟨h0, by omega, tdiv_mul_cancel_pos _ n hn, ?_, ?_⟩, ?_⟩
  · simp [createsDirectory, Int.mul_tmod_left]
  · simp [callsGrompp, Int.mul_tmod_left]
  · intro r' _ hq hg
    have hmod : r'.tmod n = 0 := by
      rcases hg with hg | hg
      · simpa [createsDirectory] using hg
      · simpa [callsGrompp] using hg
    have h := tdiv_mul_add_tmod r' n
    rw [hmod, hq] at h
    omega

theorem one_rank_per_simulation_witness :
    (0 : Int) < 2 ∧ (0 : Int) ≤ 3 ∧ (3 : Int) < 4 ∧
    (0 ≤ (3 : Int).tdiv 2 * 2 ∧ (3 : Int).tdiv 2 * 2 < 4 ∧
        ((3 : Int).tdiv 2 * 2).tdiv 2 = (3 : Int).tdiv 2 ∧
        createsDirectory ((3 : Int).tdiv 2 * 2) 2 = true ∧
        callsGrompp ((3 : Int).tdiv 2 * 2) 2 = true) ∧
      ∀ r' : Int, r' < 4 → r'.tdiv 2 = (3 : Int).tdiv 2 →
        (createsDirectory r' 2 = true ∨ callsGrompp r' 2 = true) → r' = (3 : Int).tdiv 2 * 2 :=
  ⟨by decide, by decide, by decide,
    one_rank_per_simulation 4 2 3 (by decide) (by decide) (by decide)⟩

/-- C7: with `numRanksPerSimulation_ = 0` the constructor does not reach its release
assertion: the member initialiser `simulationNumber_(rank_ / numRanksPerSimulation_)` divides
by zero first, whatever the rank and the number of ranks. -/
theorem construct_zero_divides_before_assert (join : String → String → String)
    (nodeNum nodeRank : Int) (dir : String) :
    MultiSimTest.construct join nodeNum nodeRank 0 dir = .error .divisionByZero ∧
      MultiSimTest.construct join nodeNum nodeRank 0 dir
        ≠ .error (.releaseAssert "Invalid number of ranks per simulation.") := by
  have h : MultiSimTest.construct join nodeNum nodeRank 0 dir = .error .divisionByZero := rfl
  refine ⟨h, ?_⟩
  rw [h]
  intro hc
  cases hc

/-- C8 (as stated) fails: ranks 30 and 31 both get `gen-temp = 0`. -/
theorem genTemp_not_strictly_decreasing :
    ¬ (∀ r1 r2 : Int, 0 ≤ r1 → r1 < r2 → genTemp r2 < genTemp r1) := by
  intro h
  have h' := h 30 31 (by decide) (by decide)
  simp [genTemp] at h'
  norm_num at h'

/-- C8 (amended): for ranks `0 ≤ r1 < r2`, `gen-temp` never increases, and it strictly
decreases as long as the lower rank is at most 29 (where `298 - 10 * r1` is still positive). -/
theorem genTemp_decreasing (r1 r2 : Int) (h0 : 0 ≤ r1) (hlt : r1 < r2) :
    genTemp r2 ≤ genTemp r1 ∧ (r1 ≤ 29 → genTemp r2 < genTemp r1) := by
  have hc : ((10 * r2 : Int) : ℚ) > ((10 * r1 : Int) : ℚ) := by
    exact_mod_cast (by omega : 10 * r1 < 10 * r2)
  unfold genTemp
  constructor
  · apply max_le_max _ (le_refl _)
    linarith
  · intro h29
    have hpos : (0 : ℚ) < 298 - ((10 * r1 : Int) : ℚ) := by
      have : ((10 * r1 : Int) : ℚ) ≤ ((290 : Int) : ℚ) := by
        exact_mod_cast (by omega : 10 * r1 ≤ 290)
      norm_num at this ⊢
      linarith
    rw [max_eq_left (le_of_lt hpos)]
    apply max_lt
    · linarith
    · exact hpos

theorem genTemp_decreasing_witness :
    (0 : Int) ≤ 1 ∧ (1 : Int) < 2 ∧
      (genTemp 2 ≤ genTemp 1 ∧ ((1 : Int) ≤ 29 → genTemp 2 < genTemp 1)) :=
  ⟨by decide, by decide, genTemp_decreasing 1 2 (by decide) (by decide)⟩


theorem appendMultidirs_eq (join : String → String → String) (dir : String) (k : Nat) :
    ∀ (i : Int) (args : List String),
      appendMultidirs join dir (i + k) i args
        = args ++ (List.range k).map (fun j : Nat => join dir (directoryName (i + j))) := by
  induction k with
  | zero =>
    intro i args
    rw [appendMultidirs]
    simp
  | succ k ih =>
    intro i args
    rw [appendMultidirs]
    have hlt : i < i + ((k + 1 : Nat) : Int) := by omega
    rw [if_pos hlt]
    have hb : i + ((k + 1 : Nat) : Int) = (i + 1) + (k : Int) := by omega
    rw [hb, ih (i + 1), List.range_succ_eq_map]
    simp only [List.map_cons, List.map_map, List.append_assoc, List.singleton_append,
      Nat.cast_zero, add_zero]
    congr 2
    apply List.map_congr_left
    intro j _
    simp only [Function.comp, Nat.succ_eq_add_one, Nat.cast_add, Nat.cast_one]
    congr 2
    omega

theorem construct_ok (join : String → String → String) (size_ rank_ n : Int) (dir : String)
    (hn : 0 < n) :
    MultiSimTest.construct join size_ rank_ n dir = .ok
      { size_ := size_, rank_ := rank_, numRanksPerSimulation_ := n,
        simulationNumber_ := rank_.tdiv n,
        mdrunCaller_ := appendMultidirs join dir (size_.tdiv n) 0 ["mdrun", "-multidir"],
        outputTempDirectory := join dir (directoryName (rank_.tdiv n)),
        createdDirectories :=
          if createsDirectory rank_ n then [join dir (directoryName (rank_.tdiv n))] else [] } := by
  have hne : n ≠ 0 := ne_of_gt hn
  simp [MultiSimTest.construct, intDiv, gmxReleaseAssert, hne, hn, bind, Except.bind, pure,
    Except.pure]

/-- With a negative `numRanksPerSimulation_` the division of the member initialiser is
defined and the constructor stops at its release assertion. -/
theorem construct_negative_asserts (join : String → String → String) (size_ rank_ n : Int)
    (dir : String) (hn : n < 0) :
    MultiSimTest.construct join size_ rank_ n dir
      = .error (.releaseAssert "Invalid number of ranks per simulation.") := by
  have hne : n ≠ 0 := ne_of_lt hn
  have hle : ¬ 0 < n := not_lt.mpr (le_of_lt hn)
  simp [MultiSimTest.construct, intDiv, gmxReleaseAssert, hne, hle, bind, Except.bind]

/-- What `formatString("sim_%d", i)` gives for a non-negative `i`: the text `sim_` followed
by the decimal numeral of `i`. -/
theorem directoryName_natCast (i : Nat) : directoryName (i : Int) = "sim_" ++ toString i := rfl

/-- C9: for `numRanksPerSimulation_ > 0` and a rank count `size_ ≥ 0` that is a multiple of
it, the constructor succeeds and its command line is `mdrun -multidir` followed by exactly
`size_ / numRanksPerSimulation_` directories, the `i`-th being the text `sim_` followed by the
decimal numeral of `i`, joined to the original temp directory; and for a rank `0 ≤ r < size_`
the rank's own output temp directory `sim_{r / numRanksPerSimulation_}` is one of them, with
`r / numRanksPerSimulation_ < size_ / numRanksPerSimulation_`. -/
theorem construct_multidir (join : String → String → String) (size_ rank_ n : Int)
    (dir : String) (hn : 0 < n) (hsize : 0 ≤ size_) (hmul : size_.tmod n = 0) :
    ∃ t, MultiSimTest.construct join size_ rank_ n dir = .ok t ∧
      t.mdrunCaller_ = ["mdrun", "-multidir"] ++
        (List.range (size_.tdiv n).toNat).map (fun i : Nat => join dir ("sim_" ++ toString i)) ∧
      (((t.mdrunCaller_.drop 2).length : Int) = size_.tdiv n) ∧
      (0 ≤ rank_ → rank_ < size_ →
        rank_.tdiv n < size_.tdiv n ∧
        t.outputTempDirectory = join dir ("sim_" ++ toString (rank_.tdiv n).toNat) ∧
        (t.mdrunCaller_.drop 2)[(rank_.tdiv n).toNat]? = some t.outputTempDirectory ∧
        t.outputTempDirectory ∈ t.mdrunCaller_.drop 2) := by
  refine ⟨_, construct_ok join size_ rank_ n dir hn, ?_⟩
  have hq : 0 ≤ size_.tdiv n := Int.tdiv_nonneg hsize (le_of_lt hn)
  have hcast : ((size_.tdiv n).toNat : Int) = size_.tdiv n := Int.toNat_of_nonneg hq
  have hloop : appendMultidirs join dir (size_.tdiv n) 0 ["mdrun", "-multidir"]
      = ["mdrun", "-multidir"] ++
        (List.range (size_.tdiv n).toNat).map (fun i : Nat => join dir ("sim_" ++ toString i)) := by
    have h := appendMultidirs_eq join dir (size_.tdiv n).toNat 0 ["mdrun", "-multidir"]
    rw [hcast] at h
    simpa [directoryName_natCast] using h
  show appendMultidirs join dir (size_.tdiv n) 0 ["mdrun", "-multidir"] = _ ∧
    (((appendMultidirs join dir (size_.tdiv n) 0 ["mdrun", "-multidir"]).drop 2).length : Int)
      = size_.tdiv n ∧
    (0 ≤ rank_ → rank_ < size_ →
      rank_.tdiv n < size_.tdiv n ∧
      join dir (directoryName (rank_.tdiv n))
        = join dir ("sim_" ++ toString (rank_.tdiv n).toNat) ∧
      ((appendMultidirs join dir (size_.tdiv n) 0 ["mdrun", "-multidir"]).drop 2)[
          (rank_.tdiv n).toNat]? = some (join dir (directoryName (rank_.tdiv n))) ∧
      join dir (directoryName (rank_.tdiv n))
        ∈ (appendMultidirs join dir (size_.tdiv n) 0 ["mdrun", "-multidir"]).drop 2)
  rw [hloop]
  refine ⟨rfl, ?_, ?_⟩
  · simp [hcast]
  · intro hr hlt
    have hs := tdiv_mul_add_tmod size_ n
    rw [hmul] at hs
    obtain ⟨hr0, hrle⟩ := tdiv_mul_le_of_nonneg rank_ n hr hn
    have hrq : 0 ≤ rank_.tdiv n := Int.tdiv_nonneg hr (le_of_lt hn)
    have hlt' : rank_.tdiv n < size_.tdiv n := by
      by_contra hge
      have hge' : size_.tdiv n ≤ rank_.tdiv n := not_lt.mp hge
      have := Int.mul_le_mul_of_nonneg_right hge' (le_of_lt hn)
      omega
    have hname : directoryName (rank_.tdiv n) = "sim_" ++ toString (rank_.tdiv n).toNat := by
      rw [← directoryName_natCast, Int.toNat_of_nonneg hrq]
    have hidx : (rank_.tdiv n).toNat < (size_.tdiv n).toNat := by omega
    have hdrop : List.drop 2 (["mdrun", "-multidir"] ++
        (List.range (size_.tdiv n).toNat).map (fun i : Nat => join dir ("sim_" ++ toString i)))
        = (List.range (size_.tdiv n).toNat).map
            (fun i : Nat => join dir ("sim_" ++ toString i)) := rfl
    rw [hdrop, hname]
    refine ⟨hlt', rfl, ?_, ?_⟩
    · simp [List.getElem?_map, List.getElem?_range hidx]
    · exact List.mem_map.mpr ⟨(rank_.tdiv n).toNat, List.mem_range.mpr hidx, rfl⟩

theorem construct_multidir_witness :
    (0 : Int) < 2 ∧ (0 : Int) ≤ 4 ∧ (4 : Int).tmod 2 = 0 ∧
    ∃ t, MultiSimTest.construct (fun a b => a ++ "/" ++ b) 4 3 2 "tmp" = .ok t ∧
      t.mdrunCaller_ = ["mdrun", "-multidir", "tmp/sim_0", "tmp/sim_1"] ∧
      (((t.mdrunCaller_.drop 2).length : Int) = 2) ∧
      t.outputTempDirectory = "tmp/sim_1" ∧
      (t.mdrunCaller_.drop 2)[1]? = some t.outputTempDirectory := by
  obtain ⟨t, h1, h2, h3, h4⟩ :=
    construct_multidir (fun a b => a ++ "/" ++ b) 4 3 2 "tmp" (by decide) (by decide) (by decide)
  obtain ⟨_, h5, h6, _⟩ := h4 (by decide) (by decide)
  exact ⟨by decide, by decide, by decide, t, h1, h2.trans (by decide), h3.trans (by decide),
    h5.trans (by decide), h6⟩

theorem runGrompp_of_valid (t : MultiSimTest) (p : TestParams) (numSteps g : Int)
    (hv : t.mpiSetupValid = true) :
    ∃ tr, t.runGrompp p numSteps g = .ok tr := by
  unfold MultiSimTest.runGrompp MultiSimTest.organizeMdpFile gmxReleaseAssert
  rw [hv]
  by_cases hg : callsGrompp t.rank_ t.numRanksPerSimulation_ = true
  · simp [hg, bind, Except.bind, pure, Except.pure]
  · simp [hg, pure, Except.pure]

/-- C10: for `numRanksPerSimulation_ > 0`, and whatever the ranks, the parameters and the
results of the external calls, `runExitsNormallyTest` and `runMaxhTest` finish without a
failed release assertion, and a run that reaches `organizeMdpFile` has `mpiSetupValid()` true. -/
theorem organizeMdpFile_assert_holds (t : MultiSimTest) (p : TestParams)
    (defaultNumSteps g m : Int) (hn : 0 < t.numRanksPerSimulation_) :
    (∃ tr, t.runExitsNormallyTest p defaultNumSteps g m = .ok tr ∧
        (reachesOrganizeMdpFile tr = true → t.mpiSetupValid = true)) ∧
      (∃ tr, t.runMaxhTest p g = .ok tr ∧
        (reachesOrganizeMdpFile tr = true → t.mpiSetupValid = true)) := by
  have _ := hn
  by_cases hv : t.mpiSetupValid = true
  · obtain ⟨tr1, h1⟩ := runGrompp_of_valid t p defaultNumSteps g hv
    obtain ⟨tr2, h2⟩ := runGrompp_of_valid t p 100 g hv
    constructor
    · refine ⟨[.useTopGroAndNdxFromDatabase "spc2"] ++ tr1 ++ [.callMdrun m], ?_, fun _ => hv⟩
      simp [MultiSimTest.runExitsNormallyTest, hv, h1, bind, Except.bind, pure, Except.pure]
    · refine ⟨[.useTopGroAndNdxFromDatabase "spc2"] ++ tr2 ++ [.runFirstMdrun, .runSecondMdrun],
        ?_, fun _ => hv⟩
      simp [MultiSimTest.runMaxhTest, hv, h2, bind, Except.bind, pure, Except.pure]
  · have hf : t.mpiSetupValid = false := by simpa using hv
    constructor
    · refine ⟨[], ?_, ?_⟩
      · simp [MultiSimTest.runExitsNormallyTest, hf, pure, Except.pure]
      · intro h
        simp [reachesOrganizeMdpFile] at h
    · refine ⟨[], ?_, ?_⟩
      · simp [MultiSimTest.runMaxhTest, hf, pure, Except.pure]
      · intro h
        simp [reachesOrganizeMdpFile] at h

theorem organizeMdpFile_assert_holds_witness :
    0 < fourRanksTwoPerSimulation.numRanksPerSimulation_ ∧
    (∃ tr, fourRanksTwoPerSimulation.runExitsNormallyTest ⟨"md", "v-rescale", "no"⟩ 2 0 0 = .ok tr ∧
        (reachesOrganizeMdpFile tr = true → fourRanksTwoPerSimulation.mpiSetupValid = true)) ∧
      (∃ tr, fourRanksTwoPerSimulation.runMaxhTest ⟨"md", "v-rescale", "no"⟩ 0 = .ok tr ∧
        (reachesOrganizeMdpFile tr = true → fourRanksTwoPerSimulation.mpiSetupValid = true)) :=
  ⟨by decide,
    organizeMdpFile_assert_holds fourRanksTwoPerSimulation ⟨"md", "v-rescale", "no"⟩ 2 0 0
      (by decide)⟩

end gmx.test

namespace qhop

/-! ## Theorems about the Hop Selector -/

theorem tryHop_consistent (co : Collaborators) (st : Selection) (c : HopCandidate) (u : ℚ)
    (hst : st.consistent) : (tryHop co st c u).consistent := by
  unfold tryHop
  by_cases hcl : c.donor ∈ st.claimed ∨ c.acceptor ∈ st.claimed
  · rw [if_pos hcl]
    exact hst
  · rw [if_neg hcl]
    by_cases hu : u < c.prob
    · rw [if_pos hu]
      have hd : c.donor ∉ st.claimed := fun h => hcl (Or.inl h)
      have ha : c.acceptor ∉ st.claimed := fun h => hcl (Or.inr h)
      obtain ⟨hpw, hmem⟩ := hst
      constructor
      · show List.Pairwise AcceptedHop.disjoint (st.accepted ++ [promote co c])
        rw [List.pairwise_append]
        refine ⟨hpw, List.pairwise_singleton _ _, ?_⟩
        intro h hh b hb
        rw [List.mem_singleton] at hb
        subst hb
        obtain ⟨h1, h2⟩ := hmem h hh
        refine ⟨?_, ?_, ?_, ?_⟩
        · intro e
          have e' : h.donor = c.donor := e
          exact hd (e' ▸ h1)
        · intro e
          have e' : h.acceptor = c.acceptor := e
          exact ha (e' ▸ h2)
        · intro e
          have e' : h.donor = c.acceptor := e
          exact ha (e' ▸ h1)
        · intro e
          have e' : h.acceptor = c.donor := e
          exact hd (e' ▸ h2)
      · intro h hh
        have hh' : h ∈ st.accepted ++ [promote co c] := hh
        rw [List.mem_append, List.mem_singleton] at hh'
        show h.donor ∈ c.donor :: c.acceptor :: st.claimed ∧
          h.acceptor ∈ c.donor :: c.acceptor :: st.claimed
        rcases hh' with hh' | hh'
        · obtain ⟨h1, h2⟩ := hmem h hh'
          exact ⟨List.mem_cons_of_mem _ (List.mem_cons_of_mem _ h1),
            List.mem_cons_of_mem _ (List.mem_cons_of_mem _ h2)⟩
        · subst hh'
          simp [promote]
    · rw [if_neg hu]
      exact hst

theorem firstClaimWins_consistent (co : Collaborators) (seed : Nat) (l : List HopCandidate) :
    ∀ (k : Nat) (st : Selection), st.consistent → (firstClaimWins co seed k st l).consistent := by
  induction l with
  | nil => intro k st hst; exact hst
  | cons c rest ih =>
    intro k st hst
    exact ih (k + 1) _ (tryHop_consistent co st c _ hst)

theorem firstClaimWins_append (co : Collaborators) (seed : Nat) (pre post : List HopCandidate) :
    ∀ (k : Nat) (st : Selection),
      firstClaimWins co seed k st (pre ++ post)
        = firstClaimWins co seed (k + pre.length) (firstClaimWins co seed k st pre) post := by
  induction pre with
  | nil => intro k st; rfl
  | cons c rest ih =>
    intro k st
    show firstClaimWins co seed (k + 1) (tryHop co st c (co.uniform seed k)) (rest ++ post)
        = firstClaimWins co seed (k + (rest.length + 1))
            (firstClaimWins co seed (k + 1) (tryHop co st c (co.uniform seed k)) rest) post
    rw [ih (k + 1)]
    congr 1
    omega

theorem tryHop_accepted_mono (co : Collaborators) (st : Selection) (c : HopCandidate) (u : ℚ)
    (h : AcceptedHop) (hh : h ∈ st.accepted) : h ∈ (tryHop co st c u).accepted := by
  unfold tryHop
  split
  · exact hh
  · split
    · exact List.mem_append_left _ hh
    · exact hh

theorem firstClaimWins_accepted_mono (co : Collaborators) (seed : Nat) (l : List HopCandidate) :
    ∀ (k : Nat) (st : Selection) (h : AcceptedHop),
      h ∈ st.accepted → h ∈ (firstClaimWins co seed k st l).accepted := by
  induction l with
  | nil => intro k st h hh; exact hh
  | cons c rest ih =>
    intro k st h hh
    exact ih (k + 1) _ h (tryHop_accepted_mono co st c _ h hh)

/-- Every accepted hop was there before the pass or comes from a candidate of the list whose
draw was below its probability. -/
theorem firstClaimWins_accepted_origin (co : Collaborators) (seed : Nat)
    (l : List HopCandidate) :
    ∀ (k : Nat) (st : Selection) (h : AcceptedHop),
      h ∈ (firstClaimWins co seed k st l).accepted →
        h ∈ st.accepted ∨ ∃ c ∈ l, ∃ j, h = promote co c ∧ co.uniform seed j < c.prob := by
  induction l with
  | nil => intro k st h hh; exact Or.inl hh
  | cons c rest ih =>
    intro k st h hh
    rcases ih (k + 1) _ h hh with h1 | ⟨c', hc', j, e, hj⟩
    · unfold tryHop at h1
      split at h1
      · exact Or.inl h1
      · split at h1
        · rename_i hu
          have h1' : h ∈ st.accepted ++ [promote co c] := h1
          rw [List.mem_append, List.mem_singleton] at h1'
          rcases h1' with h1' | h1'
          · exact Or.inl h1'
          · exact Or.inr ⟨c, List.mem_cons_self _ _, k, h1', hu⟩
        · exact Or.inl h1
    · exact Or.inr ⟨c', List.mem_cons_of_mem _ hc', j, e, hj⟩

theorem processingOrder_mem (co : Collaborators) (mode : QhopMode) (seed : Nat)
    (candidates : List HopCandidate) (hperm : (co.scramble seed candidates).Perm candidates)
    (c : HopCandidate) (hc : c ∈ processingOrder co mode seed candidates) : c ∈ candidates := by
  cases mode with
  | unscrambled => exact (List.perm_insertionSort candidateLE candidates).mem_iff.mp hc
  | scrambled => exact hperm.mem_iff.mp hc

theorem select_prob_pos (co : Collaborators) (seed : Nat) (l : List HopCandidate)
    (hdraw : ∀ k, 0 ≤ co.uniform seed k) (h : AcceptedHop)
    (hh : h ∈ (firstClaimWins co seed 0 { claimed := [], accepted := [] } l).accepted) :
    ∃ c ∈ l, h = promote co c ∧ 0 < c.prob := by
  rcases firstClaimWins_accepted_origin co seed l 0 _ h hh with h1 | ⟨c, hc, j, e, hj⟩
  · cases h1
  · exact ⟨c, hc, e, lt_of_le_of_lt (hdraw j) hj⟩

/-- C1: for every candidate list, seed, mode and whatever the random-number collaborator
returns, the hops accepted by the selection step are pairwise disjoint: no two of them share
a donor atom or an acceptor atom (nor is the donor of one the acceptor of another). -/
theorem select_conflict_free (co : Collaborators) (candidates : List HopCandidate) (seed : Nat)
    (mode : QhopMode) :
    (select co candidates seed mode).Pairwise AcceptedHop.disjoint :=
  (firstClaimWins_consistent co seed _ 0 { claimed := [], accepted := [] }
    ⟨List.Pairwise.nil, fun _ h => by cases h⟩).1

/-- In both modes every candidate of the list gets a turn: it occurs in the processing
order. -/
theorem processingOrder_turn (co : Collaborators) (mode : QhopMode) (seed : Nat)
    (candidates : List HopCandidate) (hperm : (co.scramble seed candidates).Perm candidates)
    (c : HopCandidate) (hc : c ∈ candidates) :
    ∃ pre post, processingOrder co mode seed candidates = pre ++ c :: post := by
  apply List.append_of_mem
  cases mode with
  | unscrambled => exact (List.perm_insertionSort candidateLE candidates).mem_iff.mpr hc
  | scrambled => exact hperm.mem_iff.mpr hc

theorem tryHop_claimsJustified (co : Collaborators) (st : Selection) (c : HopCandidate) (u : ℚ)
    (hst : st.claimsJustified) : (tryHop co st c u).claimsJustified := by
  unfold tryHop
  split
  · exact hst
  · split
    · intro a ha
      have ha' : a ∈ c.donor :: c.acceptor :: st.claimed := ha
      show ∃ h ∈ st.accepted ++ [promote co c], h.donor = a ∨ h.acceptor = a
      rw [List.mem_cons, List.mem_cons] at ha'
      rcases ha' with e | e | hmem
      · exact ⟨promote co c, List.mem_append_right _ (List.mem_singleton_self _), Or.inl e.symm⟩
      · exact ⟨promote co c, List.mem_append_right _ (List.mem_singleton_self _), Or.inr e.symm⟩
      · obtain ⟨h, hh, hor⟩ := hst a hmem
        exact ⟨h, List.mem_append_left _ hh, hor⟩
    · exact hst

theorem firstClaimWins_claimsJustified (co : Collaborators) (seed : Nat)
    (l : List HopCandidate) :
    ∀ (k : Nat) (st : Selection),
      st.claimsJustified → (firstClaimWins co seed k st l).claimsJustified := by
  induction l with
  | nil => intro k st hst; exact hst
  | cons c rest ih =>
    intro k st hst
    exact ih (k + 1) _ (tryHop_claimsJustified co st c _ hst)

/-- C2: with every draw in `[0,1)` (and the scramble a permutation of the candidates):
every candidate of the list gets a turn in the processing order; a candidate of probability 1
whose donor and acceptor are unclaimed when its turn comes is accepted, so that a candidate of
probability 1 of the list is either accepted or has its donor or acceptor held by an accepted
hop; a candidate of probability 0 is never accepted; and a candidate list whose probabilities
are all 0 yields no accepted hop in either mode. -/
theorem select_boundary (co : Collaborators) (candidates : List HopCandidate) (seed : Nat)
    (mode : QhopMode)
    (hdraw : ∀ k, 0 ≤ co.uniform seed k ∧ co.uniform seed k < 1)
    (hperm : (co.scramble seed candidates).Perm candidates) :
    (∀ c ∈ candidates, ∃ pre post, processingOrder co mode seed candidates = pre ++ c :: post) ∧
      (∀ pre c post, processingOrder co mode seed candidates = pre ++ c :: post → c.prob = 1 →
        c.donor ∉ (firstClaimWins co seed 0 { claimed := [], accepted := [] } pre).claimed →
        c.acceptor ∉ (firstClaimWins co seed 0 { claimed := [], accepted := [] } pre).claimed →
        promote co c ∈ select co candidates seed mode) ∧
      (∀ c ∈ candidates, c.prob = 1 →
        promote co c ∈ select co candidates seed mode ∨
        ∃ h ∈ select co candidates seed mode, h ≠ promote co c ∧
          (h.donor = c.donor ∨ h.acceptor = c.donor ∨
            h.donor = c.acceptor ∨ h.acceptor = c.acceptor)) ∧
      (∀ c, c.prob = 0 → promote co c ∉ select co candidates seed mode) ∧
      ((∀ c ∈ candidates, c.prob = 0) →
        select co candidates seed .unscrambled = [] ∧
        select co candidates seed .scrambled = []) := by
  have part2 : ∀ pre c post, processingOrder co mode seed candidates = pre ++ c :: post →
      c.prob = 1 →
      c.donor ∉ (firstClaimWins co seed 0 { claimed := [], accepted := [] } pre).claimed →
      c.acceptor ∉ (firstClaimWins co seed 0 { claimed := [], accepted := [] } pre).claimed →
      promote co c ∈ select co candidates seed mode := by
    intro pre c post hord hp hd ha
    unfold select
    rw [hord, firstClaimWins_append]
    simp only [firstClaimWins]
    apply firstClaimWins_accepted_mono
    unfold tryHop
    rw [if_neg (fun h => h.elim hd ha), hp, if_pos (hdraw _).2]
    exact List.mem_append_right _ (List.mem_singleton_self _)
  refine ⟨fun c hc => processingOrder_turn co mode seed candidates hperm c hc, part2, ?_, ?_, ?_⟩
  · intro c hc hp
    by_cases hacc : promote co c ∈ select co candidates seed mode
    · exact Or.inl hacc
    · right
      obtain ⟨pre, post, hord⟩ := processingOrder_turn co mode seed candidates hperm c hc
      have hjust := firstClaimWins_claimsJustified co seed pre 0
        { claimed := [], accepted := [] } (fun _ h => by cases h)
      have hsub : ∀ h ∈ (firstClaimWins co seed 0 { claimed := [], accepted := [] } pre).accepted,
          h ∈ select co candidates seed mode := by
        intro h hh
        unfold select
        rw [hord, firstClaimWins_append]
        exact firstClaimWins_accepted_mono co seed _ _ _ h hh
      have hclaimed : c.donor ∈
            (firstClaimWins co seed 0 { claimed := [], accepted := [] } pre).claimed ∨
          c.acceptor ∈
            (firstClaimWins co seed 0 { claimed := [], accepted := [] } pre).claimed := by
        by_contra hno
        exact hacc (part2 pre c post hord hp (fun h => hno (Or.inl h)) (fun h => hno (Or.inr h)))
      rcases hclaimed with hd | ha
      · obtain ⟨h, hh, hor⟩ := hjust _ hd
        refine ⟨h, hsub h hh, fun e => hacc (e ▸ hsub h hh), ?_⟩
        rcases hor with e | e
        · exact Or.inl e
        · exact Or.inr (Or.inl e)
      · obtain ⟨h, hh, hor⟩ := hjust _ ha
        refine ⟨h, hsub h hh, fun e => hacc (e ▸ hsub h hh), ?_⟩
        rcases hor with e | e
        · exact Or.inr (Or.inr (Or.inl e))
        · exact Or.inr (Or.inr (Or.inr e))
  · intro c hc hmem
    obtain ⟨c', _, e, hpos⟩ := select_prob_pos co seed _ (fun k => (hdraw k).1) _ hmem
    have hp : c.prob = c'.prob := by
      have := congrArg AcceptedHop.prob e
      simpa [promote] using this
    rw [hc] at hp
    rw [← hp] at hpos
    exact lt_irrefl _ hpos
  · intro hall
    have key : ∀ m, select co candidates seed m = [] := by
      intro m
      apply List.eq_nil_iff_forall_not_mem.mpr
      intro h hh
      obtain ⟨c', hc', _, hpos⟩ := select_prob_pos co seed _ (fun k => (hdraw k).1) _ hh
      have hz := hall c' (processingOrder_mem co m seed candidates hperm c' hc')
      rw [hz] at hpos
      exact lt_irrefl _ hpos
    exact ⟨key _, key _⟩

theorem select_boundary_witness :
    (∀ k, 0 ≤ sampleCollaborators.uniform 0 k ∧ sampleCollaborators.uniform 0 k < 1) ∧
    (sampleCollaborators.scramble 0 sampleCandidates).Perm sampleCandidates ∧
    (sampleCollaborators.scramble 0 zeroCandidates).Perm zeroCandidates ∧
    (⟨1, 5, 1, 0⟩ : HopCandidate) ∈ sampleCandidates ∧
    promote sampleCollaborators ⟨1, 5, 1, 0⟩
      ∈ select sampleCollaborators sampleCandidates 0 .unscrambled ∧
    promote sampleCollaborators ⟨3, 7, 0, 0⟩
      ∉ select sampleCollaborators sampleCandidates 0 .unscrambled ∧
    (∀ c ∈ zeroCandidates, c.prob = 0) ∧
    select sampleCollaborators zeroCandidates 0 .unscrambled = [] ∧
    select sampleCollaborators zeroCandidates 0 .scrambled = [] :=
  ⟨fun _ => by norm_num [sampleCollaborators], List.reverse_perm _, List.reverse_perm _,
    by simp [sampleCandidates],
    (select_boundary sampleCollaborators sampleCandidates 0 .unscrambled
      (fun _ => by norm_num [sampleCollaborators]) (List.reverse_perm _)).2.1
      [] ⟨1, 5, 1, 0⟩ [⟨2, 5, 1, 0⟩, ⟨3, 7, 0, 0⟩] rfl rfl
      (List.not_mem_nil _) (List.not_mem_nil _),
    (select_boundary sampleCollaborators sampleCandidates 0 .unscrambled
      (fun _ => by norm_num [sampleCollaborators]) (List.reverse_perm _)).2.2.2.1
      ⟨3, 7, 0, 0⟩ rfl,
    by simp [zeroCandidates],
    (select_boundary sampleCollaborators zeroCandidates 0 .unscrambled
      (fun _ => by norm_num [sampleCollaborators]) (List.reverse_perm _)).2.2.2.2
      (by simp [zeroCandidates])⟩

/-! ## Theorems about the Topology Mutator -/

theorem map_modifyNth_of_comp {α β : Type} (g : α → β) (f : α → α) (hf : ∀ a, g (f a) = g a) :
    ∀ (n : Nat) (l : List α), (modifyNth f n l).map g = l.map g := by
  intro n l
  induction l generalizing n with
  | nil => cases n <;> rfl
  | cons a l ih =>
    cases n with
    | zero => simp [modifyNth, hf]
    | succ n => simp [modifyNth, ih]

theorem bondedShape_swap (p pos list : Nat) (ilists : List (List BondedEntry)) :
    bondedShape (modifyNth (modifyNth (fun b => { b with param := p }) pos) list ilists)
      = bondedShape ilists := by
  unfold bondedShape
  apply map_modifyNth_of_comp
  intro il
  apply map_modifyNth_of_comp
  intro b
  rfl

theorem swapBondeds_shape (sub residue : Nat) (es : List BondedIndexEntry) :
    ∀ (ilists ilists' : List (List BondedEntry)),
      swapBondeds sub residue ilists es = .ok ilists' →
        bondedShape ilists' = bondedShape ilists := by
  induction es with
  | nil =>
    intro ilists ilists' h
    simp only [swapBondeds] at h
    cases h
    rfl
  | cons e es ih =>
    intro ilists ilists' h
    simp only [swapBondeds, swapBonded, bind, Except.bind] at h
    cases hl : e.variants.lookup sub with
    | none => rw [hl] at h; cases h
    | some p =>
      rw [hl] at h
      rw [ih _ _ h, bondedShape_swap]

/-- What a successful protonation change returns: the fields it rewrites and the ones it
leaves alone. -/
theorem changeProtonation_ok (target : Nat → Option Nat) (b : Bool) (db : QhopDb)
    (qatom : TitratableAtom) (bSwapBondeds : Bool) (s s' : SimState)
    (h : changeProtonation target b db qatom bSwapBondeds s = .ok s') :
    bondedShape s'.ilists = bondedShape s.ilists ∧ s'.x = s.x ∧ s'.v = s.v := by
  unfold changeProtonation at h
  simp only [bind, Except.bind, pure, Except.pure, throw, throwThe, MonadExceptOf.throw] at h
  cases ht : target (s.residues.getD qatom.residue
      { atoms := [], subtype := 0, bondeds := [] }).subtype with
  | none => rw [ht] at h; cases h
  | some sub =>
    rw [ht] at h
    cases bSwapBondeds with
    | false =>
      simp only [Bool.false_eq_true, if_false] at h
      cases h
      exact ⟨rfl, rfl, rfl⟩
    | true =>
      simp only [if_true] at h
      cases hs : swapBondeds sub qatom.residue s.ilists
          (s.residues.getD qatom.residue { atoms := [], subtype := 0, bondeds := [] }).bondeds with
      | error e => rw [hs] at h; cases h
      | ok il =>
        rw [hs] at h
        cases h
        exact ⟨swapBondeds_shape _ _ _ _ _ hs, rfl, rfl⟩

theorem applyHop_ok (db : QhopDb) (donor acceptor : TitratableAtom) (s s' : SimState)
    (h : applyHop db donor acceptor s = .ok s') :
    ∃ s₁, qhop_deprotonate db donor true s = .ok s₁ ∧ qhop_protonate db acceptor true s₁ = .ok s' := by
  unfold applyHop at h
  simp only [bind, Except.bind] at h
  cases h1 : qhop_deprotonate db donor true s with
  | error e => rw [h1] at h; cases h
  | ok s₁ =>
    rw [h1] at h
    exact ⟨s₁, rfl, h⟩

theorem bondedShape_length (a b : List (List BondedEntry)) (h : bondedShape a = bondedShape b) :
    a.length = b.length ∧
      ∀ i, (a.getD i []).length = (b.getD i []).length ∧
        (a.getD i []).map BondedEntry.atoms = (b.getD i []).map BondedEntry.atoms := by
  have hlen : a.length = b.length := by
    have := congrArg List.length h
    simpa [bondedShape] using this
  refine ⟨hlen, fun i => ?_⟩
  have hi : ((bondedShape a).getD i []) = ((bondedShape b).getD i []) := by rw [h]
  have hmap : ∀ l : List (List BondedEntry),
      (bondedShape l).getD i [] = (l.getD i []).map fun e => (e.ftype, e.atoms) := by
    intro l
    unfold bondedShape
    simp only [List.getD_eq_getElem?_getD, List.getElem?_map]
    cases l[i]? <;> rfl
  rw [hmap, hmap] at hi
  constructor
  · have := congrArg List.length hi
    simpa using this
  · have := congrArg (List.map Prod.snd) hi
    simpa [List.map_map, Function.comp] using this

/-- C3: when `qhop_protonate`, `qhop_deprotonate` or a whole hop succeeds, the topology has
as many bonded-interaction lists as before, every list has its length of before, and the
interaction types and atom-index tuples of all entries are those of before; only parameter
identifiers can differ. -/
theorem mutation_keeps_bonded_shape (db : QhopDb) (qatom other : TitratableAtom)
    (bSwapBondeds : Bool) (s s' : SimState)
    (h : qhop_protonate db qatom bSwapBondeds s = .ok s' ∨
      qhop_deprotonate db qatom bSwapBondeds s = .ok s' ∨
      applyHop db qatom other s = .ok s') :
    bondedShape s'.ilists = bondedShape s.ilists ∧
      s'.ilists.length = s.ilists.length ∧
      ∀ i, ((s'.ilists.getD i []).length = (s.ilists.getD i []).length ∧
        (s'.ilists.getD i []).map BondedEntry.atoms
          = (s.ilists.getD i []).map BondedEntry.atoms) := by
  have hshape : bondedShape s'.ilists = bondedShape s.ilists := by
    rcases h with h | h | h
    · exact (changeProtonation_ok _ _ _ _ _ _ _ h).1
    · exact (changeProtonation_ok _ _ _ _ _ _ _ h).1
    · obtain ⟨s₁, h1, h2⟩ := applyHop_ok db qatom other s s' h
      rw [(changeProtonation_ok _ _ _ _ _ _ _ h2).1, (changeProtonation_ok _ _ _ _ _ _ _ h1).1]
  exact ⟨hshape, bondedShape_length _ _ hshape⟩

/-- C4: when `qhop_protonate`, `qhop_deprotonate` or a whole hop succeeds, positions and
velocities are those of before the call. -/
theorem mutation_keeps_coordinates (db : QhopDb) (qatom other : TitratableAtom)
    (bSwapBondeds : Bool) (s s' : SimState)
    (h : qhop_protonate db qatom bSwapBondeds s = .ok s' ∨
      qhop_deprotonate db qatom bSwapBondeds s = .ok s' ∨
      applyHop db qatom other s = .ok s') :
    s'.x = s.x ∧ s'.v = s.v := by
  rcases h with h | h | h
  · exact (changeProtonation_ok _ _ _ _ _ _ _ h).2
  · exact (changeProtonation_ok _ _ _ _ _ _ _ h).2
  · obtain ⟨s₁, h1, h2⟩ := applyHop_ok db qatom other s s' h
    have e1 := (changeProtonation_ok _ _ _ _ _ _ _ h1).2
    have e2 := (changeProtonation_ok _ _ _ _ _ _ _ h2).2
    exact ⟨e2.1.trans e1.1, e2.2.trans e1.2⟩


theorem mutation_keeps_bonded_shape_witness :
    (qhop_protonate sampleDb sampleAcceptor true sampleState = .ok sampleProtonated ∨
      qhop_deprotonate sampleDb sampleAcceptor true sampleState = .ok sampleProtonated ∨
      applyHop sampleDb sampleAcceptor sampleDonor sampleState = .ok sampleProtonated) ∧
    (bondedShape sampleProtonated.ilists = bondedShape sampleState.ilists ∧
      sampleProtonated.ilists.length = sampleState.ilists.length ∧
      ∀ i, ((sampleProtonated.ilists.getD i []).length = (sampleState.ilists.getD i []).length ∧
        (sampleProtonated.ilists.getD i []).map BondedEntry.atoms
          = (sampleState.ilists.getD i []).map BondedEntry.atoms)) :=
  ⟨Or.inl rfl,
    mutation_keeps_bonded_shape sampleDb sampleAcceptor sampleDonor true sampleState
      sampleProtonated (Or.inl rfl)⟩

theorem mutation_keeps_coordinates_witness :
    (qhop_protonate sampleDb sampleDonor true sampleState = .ok sampleHopped ∨
      qhop_deprotonate sampleDb sampleDonor true sampleState = .ok sampleHopped ∨
      applyHop sampleDb sampleDonor sampleAcceptor sampleState = .ok sampleHopped) ∧
    (sampleHopped.x = sampleState.x ∧ sampleHopped.v = sampleState.v) :=
  ⟨Or.inr (Or.inr rfl),
    mutation_keeps_coordinates sampleDb sampleDonor sampleAcceptor true sampleState
      sampleHopped (Or.inr (Or.inr rfl))⟩

end qhop
